import Mathlib

/-!
Verification of the plugin metadata / capability-resolution subsystem of the
ember-headless-table repository.

The embedding translates the TypeScript sources into Lean:

* `base.ts` (under src/ember-headless-table/src/plugins, directory
  "-private"): metadata cache, feature resolver, options resolver,
  preferences facade;
* `src/ember-headless-table/src/plugins/sticky-columns/plugin.ts`
  (the sticky-columns worked-example plugin);
* `src/unnamed/part_000` (the `Table` resource: `modify`, the cached
  `plugins` getter, `pluginOf`).

JavaScript `Map`s are modelled as association lists that keep insertion
order, matching `Map` iteration semantics.  `assert(...)` from
`@ember/debug` throws on a falsy condition, so code paths that may assert
are modelled in `Except String`.  Object identity of freshly constructed
meta / plugin instances is modelled by natural-number instance ids handed
out by an explicit counter.
-/

namespace HeadlessTable

/-- Embedding of `Map.get`: first entry whose key equals the query, if any. -/
def lookupA {K V : Type} [DecidableEq K] : List (K × V) → K → Option V
  | [], _ => none
  | (k, v) :: rest, key => if key = k then some v else lookupA rest key

/-- Embedding of `Map.set`: replace the binding in place if the key is present
(JS `Map.set` keeps the original insertion position), otherwise append. -/
def setA {K V : Type} [DecidableEq K] : List (K × V) → K → V → List (K × V)
  | [], k, v => [(k, v)]
  | (k', v') :: rest, k, v =>
      if k = k' then (k, v) :: rest else (k', v') :: setA rest k v

/-- Embedding of `Map.delete`: remove the (unique) binding for the key, if present. -/
def deleteA {K V : Type} [DecidableEq K] : List (K × V) → K → List (K × V)
  | [], _ => []
  | (k', v') :: rest, k => if k = k' then rest else (k', v') :: deleteA rest k

theorem lookupA_setA {K V : Type} [DecidableEq K]
    (m : List (K × V)) (k k' : K) (v : V) :
    lookupA (setA m k' v) k = if k = k' then some v else lookupA m k := by
  induction m with
  | nil => simp [setA, lookupA]
  | cons hd tl ih =>
      obtain ⟨a, b⟩ := hd
      by_cases hka : k' = a
      · subst hka
        by_cases hk : k = k' <;> simp [setA, lookupA, hk]
      · by_cases hk : k = a
        · subst hk
          simp [setA, lookupA, hka, Ne.symm hka]
        · simp [setA, lookupA, hka, hk, ih]

theorem lookupA_deleteA_ne {K V : Type} [DecidableEq K]
    (m : List (K × V)) (k k' : K) (h : k ≠ k') :
    lookupA (deleteA m k') k = lookupA m k := by
  induction m with
  | nil => simp [deleteA]
  | cons hd tl ih =>
      obtain ⟨a, b⟩ := hd
      by_cases hka : k' = a
      · subst hka
        simp [deleteA, lookupA, h]
      · by_cases hk : k = a <;> simp [deleteA, lookupA, hka, hk, ih]

/-- The two-level store shape shared by `TABLE_META`, `COLUMN_META` and
`ROW_META`: root key (table identity key, or column / row object identity)
to a bucket mapping plugin class to meta instance. -/
abbrev Store (RK CK V : Type) := List (RK × List (CK × V))

/-- Read a stored meta instance: `map.get(rootKey)?.get(mapKey)`. -/
def lookupNested {RK CK V : Type} [DecidableEq RK] [DecidableEq CK]
    (map : Store RK CK V) (rootKey : RK) (mapKey : CK) : Option V :=
  lookupA ((lookupA map rootKey).getD []) mapKey

/-- Embedding of `getPluginInstance` (base.ts, lines 440-482).

The `WeakMap` and `Map` branches of the source perform the same
get-or-create logic, differing only in the root-key runtime check, so one
definition covers the three stores.  The factory closure is evaluated to an
`Except` value: the factories in `meta.forTable` / `forColumn` / `forRow`
can throw via `assert`.  The returned `Bool` records whether the factory
was invoked (i.e. whether a new instance was constructed). -/
def getPluginInstance {RK CK V : Type} [DecidableEq RK] [DecidableEq CK]
    (map : Store RK CK V) (rootKey : RK) (mapKey : CK)
    (factory : Except String V) : Except String (V × Store RK CK V × Bool) :=
  let bucket0 := lookupA map rootKey
  let bucket := bucket0.getD []
  -- `if (!bucket) { bucket = new Map(); map.set(rootKey, bucket); }`
  let map1 := match bucket0 with
    | some _ => map
    | none => setA map rootKey []
  match lookupA bucket mapKey with
  | some inst => .ok (inst, map1, false)
  | none =>
      match factory with
      | .error e => .error e
      | .ok inst => .ok (inst, setA map1 rootKey (setA bucket mapKey inst), true)

theorem getPluginInstance_hit {RK CK V : Type} [DecidableEq RK] [DecidableEq CK]
    (map : Store RK CK V) (rootKey : RK) (mapKey : CK) (f : Except String V)
    (v : V) (h : lookupNested map rootKey mapKey = some v) :
    getPluginInstance map rootKey mapKey f = .ok (v, map, false) := by
  unfold lookupNested at h
  unfold getPluginInstance
  cases hb : lookupA map rootKey with
  | none => simp [hb, lookupA] at h
  | some bucket => simp [hb] at h ⊢; simp [h]

theorem getPluginInstance_ok {RK CK V : Type} [DecidableEq RK] [DecidableEq CK]
    (map : Store RK CK V) (rootKey : RK) (mapKey : CK) (f : Except String V)
    (v : V) (map1 : Store RK CK V) (b : Bool)
    (h : getPluginInstance map rootKey mapKey f = .ok (v, map1, b)) :
    lookupNested map1 rootKey mapKey = some v ∧
    (∀ v0, lookupNested map rootKey mapKey = some v0 → v = v0 ∧ b = false ∧ map1 = map) ∧
    (∀ rk2 ck2 w, lookupNested map rk2 ck2 = some w → lookupNested map1 rk2 ck2 = some w) := by
  unfold getPluginInstance at h
  cases hb : lookupA map rootKey with
  | some bucket =>
      simp [hb] at h
      cases hl : lookupA bucket mapKey with
      | some inst =>
          simp [hl] at h
          obtain ⟨rfl, rfl, rfl⟩ := h
          refine ⟨?_, ?_, ?_⟩
          · simp [lookupNested, hb, hl]
          · intro v0 h0
            simp [lookupNested, hb, hl] at h0
            exact ⟨h0, rfl, rfl⟩
          · intro rk2 ck2 w hw; exact hw
      | none =>
          cases hf : f with
          | error e => simp [hl, hf] at h
          | ok inst =>
              simp [hl, hf] at h
              obtain ⟨rfl, rfl, rfl⟩ := h
              refine ⟨?_, ?_, ?_⟩
              · simp [lookupNested, lookupA_setA]
              · intro v0 h0
                simp [lookupNested, hb, hl] at h0
              · intro rk2 ck2 w hw
                by_cases hrk : rk2 = rootKey
                · subst hrk
                  simp [lookupNested, hb, lookupA_setA] at hw ⊢
                  by_cases hck : ck2 = mapKey
                  · subst hck; simp [hl] at hw
                  · simp [lookupA_setA, hck, hw]
                · simpa [lookupNested, lookupA_setA, hrk] using hw
  | none =>
      simp [hb] at h
      cases hf : f with
      | error e => simp [lookupA, hf] at h
      | ok inst =>
          simp [lookupA, hf] at h
          obtain ⟨rfl, rfl, rfl⟩ := h
          refine ⟨?_, ?_, ?_⟩
          · simp [lookupNested, lookupA_setA, setA, lookupA]
          · intro v0 h0
            simp [lookupNested, hb, lookupA] at h0
          · intro rk2 ck2 w hw
            by_cases hrk : rk2 = rootKey
            · subst hrk
              simp [lookupNested, hb] at hw
              simp [lookupA] at hw
            · simpa [lookupNested, lookupA_setA, hrk] using hw

/-- C1: metadata lookup is get-or-create and idempotent.  After any
successful call `getPluginInstance map rootKey mapKey f = ok (v, map1, b)`:
a second call on the same (entity, plugin class) pair, with any factory,
returns the identical instance `v`, leaves the store unchanged, and does
not invoke the factory; the instance is stored under the pair; if an
instance was already stored before the call it is the one returned, the
factory was not invoked, and the store is untouched; and no stored
instance of any pair is ever overwritten or dropped. -/
theorem metaFor_get_or_create_idempotent {RK CK V : Type}
    [DecidableEq RK] [DecidableEq CK]
    (map : Store RK CK V) (rootKey : RK) (mapKey : CK) (f : Except String V)
    (v : V) (map1 : Store RK CK V) (b : Bool)
    (h : getPluginInstance map rootKey mapKey f = .ok (v, map1, b)) :
    (∀ f2, getPluginInstance map1 rootKey mapKey f2 = .ok (v, map1, false)) ∧
    lookupNested map1 rootKey mapKey = some v ∧
    (∀ v0, lookupNested map rootKey mapKey = some v0 → v = v0 ∧ b = false ∧ map1 = map) ∧
    (∀ rk2 ck2 w, lookupNested map rk2 ck2 = some w → lookupNested map1 rk2 ck2 = some w) := by
  obtain ⟨hstored, hpre, hframe⟩ := getPluginInstance_ok map rootKey mapKey f v map1 b h
  refine ⟨?_, hstored, hpre, hframe⟩
  intro f2
  exact getPluginInstance_hit map1 rootKey mapKey f2 v hstored

/-- Witness for C1 at concrete inputs: a first call on an empty store
creates instance 7, and the theorem then yields that a second call (with a
factory that would produce 8) returns the same instance 7, leaves the
store unchanged, and does not run the factory. -/
theorem metaFor_get_or_create_idempotent_witness :
    getPluginInstance ([] : Store Nat Nat Nat) 0 1 (.ok 7) =
      .ok (7, [(0, [(1, 7)])], true) ∧
    getPluginInstance [(0, [(1, 7)])] 0 1 (.ok 8) = .ok (7, [(0, [(1, 7)])], false) ∧
    lookupNested [(0, [(1, 7)])] 0 1 = some 7 := by
  have h1 : getPluginInstance ([] : Store Nat Nat Nat) 0 1 (.ok 7) =
      .ok (7, [(0, [(1, 7)])], true) := by rfl
  have h := metaFor_get_or_create_idempotent ([] : Store Nat Nat Nat) 0 1 (.ok 7)
    7 [(0, [(1, 7)])] true h1
  exact ⟨h1, h.1 (.ok 8), h.2.1⟩

/-- A live plugin instance as seen by the resolver code: its constructor
identity (`classId`, standing for the JS class object used in
`instanceof` / `===` checks), the constructor's `.name`, the instance
`name` field, the instance-level `features` field, the class-level static
`features`, and whether `meta` / `meta.table` / `meta.column` /
`meta.row` are specified. -/
structure PluginDef where
  classId : Nat
  className : String
  name : String
  features : Option (List String)
  staticFeatures : Option (List String)
  hasMeta : Bool
  hasTableMeta : Bool
  hasColumnMeta : Bool
  hasRowMeta : Bool
deriving DecidableEq

/-- Embedding of `Table.pluginOf` (part_000, lines 191-204):
`this.plugins.find((plugin) => plugin instanceof klass)`.  `instanceof`
is modelled as constructor identity (subclassing is not exercised by the
claims). -/
def pluginOf (plugins : List PluginDef) (klass : Nat) : Option PluginDef :=
  plugins.find? (fun p => p.classId == klass)

/-- The factory closure passed by `meta.forTable` (base.ts, lines
283-301) to `getPluginInstance`: resolve the plugin, assert it is
registered and declares a table meta, assert no table meta for this class
is already cached for this table, then construct a fresh meta instance
(`new plugin.meta.table(table)`, modelled by the id `fresh`).

The closure reads `TABLE_META` at invocation time; `getPluginInstance`
may have inserted an empty bucket by then, which has the same keys as the
state `st` captured here, so passing `st` is faithful. -/
def forTableFactory (st : Store String Nat Nat) (tableKey : String)
    (klass : Nat) (plugins : List PluginDef) (fresh : Nat) :
    Except String Nat :=
  match pluginOf plugins klass with
  | none => .error "cannot get plugin instance of unregistered plugin class"
  | some plugin =>
      if !plugin.hasMeta then
        .error (plugin.name ++ " plugin does not have meta specified")
      else if !plugin.hasTableMeta then
        .error (plugin.name ++ " plugin does not specify table meta")
      else if (((lookupA st tableKey).getD []).map Prod.fst).contains klass then
        .error (plugin.name ++ " plugin already exists for the table. A plugin may only be instantiated once per table.")
      else
        .ok fresh

/-- Embedding of `meta.forTable` (base.ts, lines 283-301): get-or-create on
`TABLE_META`, keyed by the table's stable identity key
`table[TABLE_KEY]`, with the asserting factory above. -/
def metaForTable (st : Store String Nat Nat) (tableKey : String)
    (klass : Nat) (plugins : List PluginDef) (fresh : Nat) :
    Except String (Nat × Store String Nat Nat × Bool) :=
  getPluginInstance st tableKey klass (forTableFactory st tableKey klass plugins fresh)

/-- The factory closure passed by `meta.forColumn` (base.ts, lines
239-252): assert registration and a declared column meta, then
`new plugin.meta.column(column)`. -/
def forColumnFactory (klass : Nat) (plugins : List PluginDef) (fresh : Nat) :
    Except String Nat :=
  match pluginOf plugins klass with
  | none => .error "cannot get plugin instance of unregistered plugin class"
  | some plugin =>
      if !plugin.hasMeta then
        .error (plugin.name ++ " plugin does not have meta specified")
      else if !plugin.hasColumnMeta then
        .error (plugin.name ++ " plugin does not specify column meta")
      else
        .ok fresh

/-- Embedding of `meta.forColumn` (base.ts, lines 239-252): get-or-create on
`COLUMN_META`, keyed by column object identity (modelled as a `Nat`). -/
def metaForColumn (st : Store Nat Nat Nat) (columnId : Nat)
    (klass : Nat) (plugins : List PluginDef) (fresh : Nat) :
    Except String (Nat × Store Nat Nat Nat × Bool) :=
  getPluginInstance st columnId klass (forColumnFactory klass plugins fresh)

/-- The factory closure passed by `meta.forRow` (base.ts, lines 262-275). -/
def forRowFactory (klass : Nat) (plugins : List PluginDef) (fresh : Nat) :
    Except String Nat :=
  match pluginOf plugins klass with
  | none => .error "cannot get plugin instance of unregistered plugin class"
  | some plugin =>
      if !plugin.hasMeta then
        .error (plugin.name ++ " plugin does not have meta specified")
      else if !plugin.hasRowMeta then
        .error (plugin.name ++ " plugin does not specify row meta")
      else
        .ok fresh

/-- Embedding of `meta.forRow` (base.ts, lines 262-275): get-or-create on `ROW_META`,
keyed by row object identity. -/
def metaForRow (st : Store Nat Nat Nat) (rowId : Nat)
    (klass : Nat) (plugins : List PluginDef) (fresh : Nat) :
    Except String (Nat × Store Nat Nat Nat × Bool) :=
  getPluginInstance st rowId klass (forRowFactory klass plugins fresh)

theorem contains_fst_of_lookupA {K V : Type} [DecidableEq K]
    (l : List (K × V)) (k : K) (v : V) (h : lookupA l k = some v) :
    ((l.map Prod.fst).contains k) = true := by
  induction l with
  | nil => simp [lookupA] at h
  | cons hd tl ih =>
      obtain ⟨a, b⟩ := hd
      by_cases hk : k = a
      · subst hk
        simp [List.contains_cons]
      · simp only [lookupA, if_neg hk] at h
        simp only [List.map_cons, List.contains_cons]
        exact Bool.or_eq_true _ _ |>.mpr (Or.inr (ih h))

/-- C3: while a table already holds a table meta for plugin class P,
`meta.forTable` returns that stored instance without constructing a
second one (factory flag `false`, store untouched), and forcing the
factory to run anyway in that state fails with the fatal
"already exists for the table" configuration error instead of silently
overwriting. -/
theorem table_meta_never_constructed_twice
    (st : Store String Nat Nat) (tableKey : String) (klass : Nat)
    (plugins : List PluginDef) (fresh : Nat) (v : Nat) (p : PluginDef)
    (hheld : lookupNested st tableKey klass = some v)
    (hreg : pluginOf plugins klass = some p)
    (hmeta : p.hasMeta = true) (htable : p.hasTableMeta = true) :
    metaForTable st tableKey klass plugins fresh = .ok (v, st, false) ∧
    forTableFactory st tableKey klass plugins fresh =
      .error (p.name ++ " plugin already exists for the table. A plugin may only be instantiated once per table.") := by
  constructor
  · exact getPluginInstance_hit st tableKey klass _ v hheld
  · unfold forTableFactory
    rw [hreg]
    have hmem : (((lookupA st tableKey).getD []).map Prod.fst).contains klass = true :=
      contains_fst_of_lookupA _ klass v hheld
    simp only [hmeta, htable, hmem, Bool.not_true]
    simp

/-- Witness for C3: a table whose store already maps (key "t1", class 3)
to meta 10, with class 3 registered and declaring table meta; the second
access returns meta 10 unchanged and the forced factory errors. -/
theorem table_meta_never_constructed_twice_witness :
    metaForTable [("t1", [(3, 10)])] "t1" 3
        [⟨3, "P", "p", none, none, true, true, false, false⟩] 99 =
      .ok (10, [("t1", [(3, 10)])], false) ∧
    forTableFactory [("t1", [(3, 10)])] "t1" 3
        [⟨3, "P", "p", none, none, true, true, false, false⟩] 99 =
      .error "p plugin already exists for the table. A plugin may only be instantiated once per table." := by
  have h := table_meta_never_constructed_twice [("t1", [(3, 10)])] "t1" 3
    [⟨3, "P", "p", none, none, true, true, false, false⟩] 99 10
    ⟨3, "P", "p", none, none, true, true, false, false⟩
    (by rfl) (by rfl) rfl rfl
  exact h

/-- Embedding of `plugin.features || (plugin.constructor as typeof BasePlugin).features`
(base.ts, line 372): the instance field when defined (an empty array is
truthy in JS and is kept), otherwise the class-level static field. -/
def effectiveFeatures (p : PluginDef) : Option (List String) :=
  match p.features with
  | some fs => some fs
  | none => p.staticFeatures

/-- Embedding of `features?.includes(featureName)` (base.ts, line 374); `undefined`
is falsy. -/
def hasFeature (p : PluginDef) (featureName : String) : Bool :=
  match effectiveFeatures p with
  | some fs => fs.contains featureName
  | none => false

/-- Embedding of `findPlugin` (base.ts, lines 364-378): first plugin in configuration
order whose effective features include the feature name. -/
def findPlugin (plugins : List PluginDef) (featureName : String) :
    Option PluginDef :=
  plugins.find? (fun p => hasFeature p featureName)

/-- Embedding of `availableFeatures` (base.ts, lines 380-397): all effective features
of the active plugins, flattened; `.filter(Boolean)` drops `undefined`
entries and empty strings; joined with ", " or rendered "[none]". -/
def availableFeatures (plugins : List PluginDef) : String :=
  let allFeatures :=
    (plugins.flatMap (fun p => (effectiveFeatures p).getD [])).filter
      (fun s => s != "")
  if allFeatures.length > 0 then String.intercalate ", " allFeatures
  else "[none]"

/-- Embedding of `meta.withFeature.forTable` (base.ts, lines 344-360): find the
provider plugin for the feature, assert one exists (the error message
enumerates the available features), then delegate to `meta.forTable`
with the provider's constructor. -/
def metaWithFeatureForTable (st : Store String Nat Nat) (tableKey : String)
    (plugins : List PluginDef) (featureName : String) (fresh : Nat) :
    Except String (Nat × Store String Nat Nat × Bool) :=
  match findPlugin plugins featureName with
  | none =>
      .error ("Could not find plugin with feature: " ++ featureName ++
        ". Available features: " ++ availableFeatures plugins)
  | some provider => metaForTable st tableKey provider.classId plugins fresh

/-- Embedding of `meta.withFeature.forColumn` (base.ts, lines 317-333): same search
over the column's table's plugins, delegating to `meta.forColumn`. -/
def metaWithFeatureForColumn (st : Store Nat Nat Nat) (columnId : Nat)
    (plugins : List PluginDef) (featureName : String) (fresh : Nat) :
    Except String (Nat × Store Nat Nat Nat × Bool) :=
  match findPlugin plugins featureName with
  | none =>
      .error ("Could not find plugin with feature: " ++ featureName ++
        ". Available features: " ++ availableFeatures plugins)
  | some provider => metaForColumn st columnId provider.classId plugins fresh

/-- C4: feature resolution is deterministic first-match-wins in
configuration order.  If no plugin in the prefix `pre` has feature `f`
(features read from the instance, falling back to the static class
declaration, as `hasFeature` does) and `p` has it, then `findPlugin`
over `pre ++ p :: post` returns `p` — regardless of `post` — and the
table-scope resolver returns exactly the meta that `meta.forTable`
yields for `p`'s class. -/
theorem feature_resolution_first_match_wins
    (st : Store String Nat Nat) (tableKey : String) (fresh : Nat)
    (pre post : List PluginDef) (p : PluginDef) (f : String)
    (h1 : ∀ q ∈ pre, hasFeature q f = false)
    (h2 : hasFeature p f = true) :
    findPlugin (pre ++ p :: post) f = some p ∧
    metaWithFeatureForTable st tableKey (pre ++ p :: post) f fresh =
      metaForTable st tableKey p.classId (pre ++ p :: post) fresh := by
  have hfind : findPlugin (pre ++ p :: post) f = some p := by
    induction pre with
    | nil => simp [findPlugin, List.find?_cons, h2]
    | cons hd tl ih =>
        have hhd : hasFeature hd f = false := h1 hd (List.mem_cons_self hd tl)
        have htl : ∀ q ∈ tl, hasFeature q f = false := fun q hq =>
          h1 q (List.mem_cons_of_mem hd hq)
        simpa [findPlugin, List.find?_cons, hhd] using ih htl
  refine ⟨hfind, ?_⟩
  unfold metaWithFeatureForTable
  rw [hfind]

/-- Witness for C4: plugins [C (no features), A (static features ["w"]),
B (instance features ["w"])] in that order: resolution of "w" picks A —
via the static fallback — never B, and the resolver returns A's
table meta (freshly constructed here on an empty store). -/
theorem feature_resolution_first_match_wins_witness :
    findPlugin
      [⟨1, "C", "c", none, none, false, false, false, false⟩,
       ⟨2, "A", "a", none, some ["w"], true, true, false, false⟩,
       ⟨3, "B", "b", some ["w"], none, true, true, false, false⟩] "w" =
      some ⟨2, "A", "a", none, some ["w"], true, true, false, false⟩ ∧
    metaWithFeatureForTable [] "t"
      [⟨1, "C", "c", none, none, false, false, false, false⟩,
       ⟨2, "A", "a", none, some ["w"], true, true, false, false⟩,
       ⟨3, "B", "b", some ["w"], none, true, true, false, false⟩] "w" 42 =
      .ok (42, [("t", [(2, 42)])], true) := by
  have h := feature_resolution_first_match_wins [] "t" 42
    [⟨1, "C", "c", none, none, false, false, false, false⟩]
    [⟨3, "B", "b", some ["w"], none, true, true, false, false⟩]
    ⟨2, "A", "a", none, some ["w"], true, true, false, false⟩ "w"
    (by intro q hq; simp at hq; subst hq; rfl) (by rfl)
  simp only [List.cons_append, List.nil_append] at h
  refine ⟨h.1, ?_⟩
  rw [h.2]
  rfl

theorem lookupA_eq_none_of_not_mem {K V : Type} [DecidableEq K]
    (m : List (K × V)) (k : K) (h : k ∉ m.map Prod.fst) :
    lookupA m k = none := by
  induction m with
  | nil => rfl
  | cons hd tl ih =>
      obtain ⟨a, b⟩ := hd
      simp only [List.map_cons, List.mem_cons, not_or] at h
      simp [lookupA, h.1, ih h.2]

theorem lookupA_deleteA_self {K V : Type} [DecidableEq K]
    (m : List (K × V)) (k : K) (h : (m.map Prod.fst).Nodup) :
    lookupA (deleteA m k) k = none := by
  induction m with
  | nil => rfl
  | cons hd tl ih =>
      obtain ⟨a, b⟩ := hd
      simp only [List.map_cons, List.nodup_cons] at h
      by_cases hk : k = a
      · subst hk
        simp only [deleteA, if_pos rfl]
        exact lookupA_eq_none_of_not_mem tl k h.1
      · simp [deleteA, lookupA, hk, ih h.2]

/-- A JS class as handed to the preferences facade: the facade only
reads `klass.name`, the constructor's name, which is not injective over
distinct classes. -/
structure ClassDef where
  classId : Nat
  className : String
deriving DecidableEq

/-- A column as seen by the preferences facade: only `column.key` is
read. -/
structure ColumnDef where
  key : String
deriving DecidableEq

/-- Modelled from the spec: the per-plugin bucket of the `TablePreferences`
storage (preferences.ts, in the "-private" directory of
src/ember-headless-table/src, is not among the sources; only the facade in
base.ts is).  The spec describes "a nested
key-value structure addressed by (plugin name) → (column key | "table") →
(preference key) → value": one map of table-scope entries (`existing.table`
in the facade) and one map of per-column maps (`existing.forColumn(key)`).
Preference values are modelled as `Nat`. -/
structure PluginPrefs where
  table : List (String × Nat)
  columns : List (String × List (String × Nat))
deriving DecidableEq

def emptyPluginPrefs : PluginPrefs := ⟨[], []⟩

/-- Modelled from the spec: the `TablePreferences` store, addressed first
by plugin name, with a `persist()` operation that flushes to the backing
adapter; persisting is modelled by counting the calls. -/
structure PreferencesState where
  storage : List (String × PluginPrefs)
  persistCount : Nat
deriving DecidableEq

/-- Modelled from the spec: `prefs.storage.forPlugin(name)` — the bucket
for a plugin name, an empty one if none exists yet. -/
def forPluginPrefs (st : PreferencesState) (pluginName : String) :
    PluginPrefs :=
  (lookupA st.storage pluginName).getD emptyPluginPrefs

/-- Embedding of `preferences.forColumn(column, klass).set(key, value)` (base.ts,
lines 171-179): write through the path
`storage[klass.name].columns[column.key][key]`, then `persist()`. -/
def prefsColumnSet (st : PreferencesState) (column : ColumnDef)
    (klass : ClassDef) (key : String) (value : Nat) : PreferencesState :=
  let existing := forPluginPrefs st klass.className
  let columnPrefs := (lookupA existing.columns column.key).getD []
  let existing2 :=
    { existing with
        columns := setA existing.columns column.key (setA columnPrefs key value) }
  { storage := setA st.storage klass.className existing2,
    persistCount := st.persistCount + 1 }

/-- Embedding of `preferences.forColumn(column, klass).get(key)` (base.ts, lines
161-167). -/
def prefsColumnGet (st : PreferencesState) (column : ColumnDef)
    (klass : ClassDef) (key : String) : Option Nat :=
  lookupA
    ((lookupA (forPluginPrefs st klass.className).columns column.key).getD [])
    key

/-- Embedding of `preferences.forColumn(column, klass).delete(key)` (base.ts, lines
149-157). -/
def prefsColumnDelete (st : PreferencesState) (column : ColumnDef)
    (klass : ClassDef) (key : String) : PreferencesState :=
  let existing := forPluginPrefs st klass.className
  let columnPrefs := (lookupA existing.columns column.key).getD []
  let existing2 :=
    { existing with
        columns := setA existing.columns column.key (deleteA columnPrefs key) }
  { storage := setA st.storage klass.className existing2,
    persistCount := st.persistCount + 1 }

/-- Embedding of `preferences.forTable(table, klass).set(key, value)` (base.ts, lines
218-225): write through `storage[klass.name].table[key]`, then
`persist()`. -/
def prefsTableSet (st : PreferencesState) (klass : ClassDef)
    (key : String) (value : Nat) : PreferencesState :=
  let existing := forPluginPrefs st klass.className
  let existing2 := { existing with table := setA existing.table key value }
  { storage := setA st.storage klass.className existing2,
    persistCount := st.persistCount + 1 }

/-- Embedding of `preferences.forTable(table, klass).get(key)` (base.ts, lines
209-214). -/
def prefsTableGet (st : PreferencesState) (klass : ClassDef)
    (key : String) : Option Nat :=
  lookupA (forPluginPrefs st klass.className).table key

/-- Embedding of `preferences.forTable(table, klass).delete(key)` (base.ts, lines
198-205). -/
def prefsTableDelete (st : PreferencesState) (klass : ClassDef)
    (key : String) : PreferencesState :=
  let existing := forPluginPrefs st klass.className
  let existing2 := { existing with table := deleteA existing.table key }
  { storage := setA st.storage klass.className existing2,
    persistCount := st.persistCount + 1 }

/-- Read a value at the nested store path
`[pluginName][columnKey | "table"][key]`; `scope = none` is the
table-scope segment, `scope = some ck` the column segment. -/
def prefsPath (st : PreferencesState) (pluginName : String)
    (scope : Option String) (key : String) : Option Nat :=
  let pp := forPluginPrefs st pluginName
  match scope with
  | none => lookupA pp.table key
  | some ck => lookupA ((lookupA pp.columns ck).getD []) key

/-- C6: preference entries are addressed by the nested path
`[klass.name][columnKey | "table"][key]`.  A column-scope set stores the
value exactly at `[klass.name][column.key][key]`, a table-scope set at
`[klass.name]["table" segment][key]`, deletes clear those paths (given
the addressed bucket has no duplicate keys, as a JS `Map` cannot), every
path whose first segment is a different plugin name is untouched, and
every set and every delete performs exactly one `persist()` call after
the mutation. -/
theorem preferences_nested_path_and_persist
    (st : PreferencesState) (column : ColumnDef) (klass : ClassDef)
    (key : String) (value : Nat)
    (hcol : ((((lookupA (forPluginPrefs st klass.className).columns
        column.key).getD []).map Prod.fst)).Nodup)
    (htab : (((forPluginPrefs st klass.className).table.map Prod.fst)).Nodup) :
    (prefsColumnSet st column klass key value).persistCount = st.persistCount + 1 ∧
    prefsPath (prefsColumnSet st column klass key value) klass.className
      (some column.key) key = some value ∧
    (prefsColumnDelete st column klass key).persistCount = st.persistCount + 1 ∧
    prefsPath (prefsColumnDelete st column klass key) klass.className
      (some column.key) key = none ∧
    (prefsTableSet st klass key value).persistCount = st.persistCount + 1 ∧
    prefsPath (prefsTableSet st klass key value) klass.className none key = some value ∧
    (prefsTableDelete st klass key).persistCount = st.persistCount + 1 ∧
    prefsPath (prefsTableDelete st klass key) klass.className none key = none ∧
    (∀ n scope k2, n ≠ klass.className →
      prefsPath (prefsColumnSet st column klass key value) n scope k2 =
        prefsPath st n scope k2 ∧
      prefsPath (prefsColumnDelete st column klass key) n scope k2 =
        prefsPath st n scope k2 ∧
      prefsPath (prefsTableSet st klass key value) n scope k2 =
        prefsPath st n scope k2 ∧
      prefsPath (prefsTableDelete st klass key) n scope k2 =
        prefsPath st n scope k2) := by
  refine ⟨rfl, ?_, rfl, ?_, rfl, ?_, rfl, ?_, ?_⟩
  · simp [prefsPath, prefsColumnSet, forPluginPrefs, lookupA_setA]
  · simp [prefsPath, prefsColumnDelete, forPluginPrefs, lookupA_setA]
    exact lookupA_deleteA_self _ key hcol
  · simp [prefsPath, prefsTableSet, forPluginPrefs, lookupA_setA]
  · simp [prefsPath, prefsTableDelete, forPluginPrefs, lookupA_setA]
    exact lookupA_deleteA_self _ key htab
  · intro n scope k2 hn
    refine ⟨?_, ?_, ?_, ?_⟩ <;>
      simp [prefsPath, prefsColumnSet, prefsColumnDelete, prefsTableSet,
        prefsTableDelete, forPluginPrefs, lookupA_setA, hn]

/-- Witness for C6 at concrete inputs: an empty store, column "a",
class named "P", key "k", value 7. -/
theorem preferences_nested_path_and_persist_witness :
    (prefsColumnSet ⟨[], 0⟩ ⟨"a"⟩ ⟨0, "P"⟩ "k" 7).persistCount = 1 ∧
    prefsPath (prefsColumnSet ⟨[], 0⟩ ⟨"a"⟩ ⟨0, "P"⟩ "k" 7) "P" (some "a") "k" =
      some 7 ∧
    prefsPath (prefsColumnSet ⟨[], 0⟩ ⟨"a"⟩ ⟨0, "P"⟩ "k" 7) "Q" (some "a") "k" =
      prefsPath ⟨[], 0⟩ "Q" (some "a") "k" := by
  have h := preferences_nested_path_and_persist ⟨[], 0⟩ ⟨"a"⟩ ⟨0, "P"⟩ "k" 7
    (by simp [forPluginPrefs, emptyPluginPrefs, lookupA])
    (by simp [forPluginPrefs, emptyPluginPrefs, lookupA])
  exact ⟨h.1, h.2.1, (h.2.2.2.2.2.2.2.2 "Q" (some "a") "k" (by decide)).1⟩

/-- C5 as frozen is false on the code: the preferences scope is keyed by
`klass.name` only, so two distinct plugin classes that happen to share a
constructor name share one scope.  Concretely, with distinct classes
`⟨0, "Dup"⟩` and `⟨1, "Dup"⟩`, a value set under the first is observed
under the second. -/
theorem preferences_cross_class_counterexample :
    (⟨0, "Dup"⟩ : ClassDef) ≠ ⟨1, "Dup"⟩ ∧
    prefsColumnGet
      (prefsColumnSet ⟨[], 0⟩ ⟨"a"⟩ ⟨0, "Dup"⟩ "k" 7) ⟨"a"⟩ ⟨1, "Dup"⟩ "k" =
      some 7 := by
  constructor
  · intro h; cases h
  · rfl

/-- C5 amended: preferences round-trip, and isolation between plugin
classes with distinct constructor names.  On any scope, `set` then `get`
returns the value and `delete` then `get` returns `undefined` (the
delete case assumes the addressed JS `Map` bucket has no duplicate keys,
which a `Map` cannot have); and when `P.name ≠ Q.name`, `set` and
`delete` on P's (column or table) scope never alter what Q's scope
observes. -/
theorem preferences_roundtrip_and_name_isolation
    (st : PreferencesState) (column : ColumnDef) (P Q : ClassDef)
    (key k2 : String) (v : Nat)
    (hname : P.className ≠ Q.className)
    (hcol : ((((lookupA (forPluginPrefs st P.className).columns
        column.key).getD []).map Prod.fst)).Nodup)
    (htab : (((forPluginPrefs st P.className).table.map Prod.fst)).Nodup) :
    prefsColumnGet (prefsColumnSet st column P key v) column P key = some v ∧
    prefsColumnGet (prefsColumnDelete st column P key) column P key = none ∧
    prefsTableGet (prefsTableSet st P key v) P key = some v ∧
    prefsTableGet (prefsTableDelete st P key) P key = none ∧
    prefsColumnGet (prefsColumnSet st column P key v) column Q k2 =
      prefsColumnGet st column Q k2 ∧
    prefsColumnGet (prefsColumnDelete st column P key) column Q k2 =
      prefsColumnGet st column Q k2 ∧
    prefsTableGet (prefsTableSet st P key v) Q k2 = prefsTableGet st Q k2 ∧
    prefsTableGet (prefsTableDelete st P key) Q k2 = prefsTableGet st Q k2 := by
  have hQ : Q.className ≠ P.className := Ne.symm hname
  refine ⟨?_, ?_, ?_, ?_, ?_, ?_, ?_, ?_⟩
  · simp [prefsColumnGet, prefsColumnSet, forPluginPrefs, lookupA_setA]
  · simp [prefsColumnGet, prefsColumnDelete, forPluginPrefs, lookupA_setA]
    exact lookupA_deleteA_self _ key hcol
  · simp [prefsTableGet, prefsTableSet, forPluginPrefs, lookupA_setA]
  · simp [prefsTableGet, prefsTableDelete, forPluginPrefs, lookupA_setA]
    exact lookupA_deleteA_self _ key htab
  · simp [prefsColumnGet, prefsColumnSet, forPluginPrefs, lookupA_setA, hQ]
  · simp [prefsColumnGet, prefsColumnDelete, forPluginPrefs, lookupA_setA, hQ]
  · simp [prefsTableGet, prefsTableSet, forPluginPrefs, lookupA_setA, hQ]
  · simp [prefsTableGet, prefsTableDelete, forPluginPrefs, lookupA_setA, hQ]

/-- Witness for the amended C5: classes named "P" and "Q" on an empty
store. -/
theorem preferences_roundtrip_and_name_isolation_witness :
    prefsColumnGet
      (prefsColumnSet ⟨[], 0⟩ ⟨"a"⟩ ⟨0, "P"⟩ "k" 7) ⟨"a"⟩ ⟨0, "P"⟩ "k" =
      some 7 ∧
    prefsColumnGet
      (prefsColumnSet ⟨[], 0⟩ ⟨"a"⟩ ⟨0, "P"⟩ "k" 7) ⟨"a"⟩ ⟨1, "Q"⟩ "k" =
      prefsColumnGet ⟨[], 0⟩ ⟨"a"⟩ ⟨1, "Q"⟩ "k" := by
  have h := preferences_roundtrip_and_name_isolation ⟨[], 0⟩ ⟨"a"⟩
    ⟨0, "P"⟩ ⟨1, "Q"⟩ "k" "k" 7 (by decide)
    (by simp [forPluginPrefs, emptyPluginPrefs, lookupA])
    (by simp [forPluginPrefs, emptyPluginPrefs, lookupA])
  exact ⟨h.1, h.2.2.2.2.1⟩

/-- A raw entry of the table's `plugins` configuration: either a bare
plugin class, or a (class, zero-argument option-provider) pair — the two
helper forms of the spec (section 6).  A provider is modelled by the
value it returns when invoked (`none` models returning `undefined`). -/
inductive PluginConfigEntry (V : Type) where
  | bare (klass : Nat)
  | withOptions (klass : Nat) (provider : Option (List (String × V)))
deriving DecidableEq

/-- Modelled from the spec: `normalizePluginsConfig` (utils.ts, not among
the sources).  Per spec section 4.1 it turns the configured plugin list
into "an ordered list of (plugin-class-or-instance, option-provider)
pairs"; a bare class gets a default provider yielding the empty options
object.  An absent `plugins` configuration yields the empty list. -/
def normalizePluginsConfig {V : Type} :
    Option (List (PluginConfigEntry V)) → List (Nat × Option (List (String × V)))
  | none => []
  | some entries =>
      entries.map fun e =>
        match e with
        | .bare k => (k, some [])
        | .withOptions k provider => (k, provider)

/-- Embedding of `options.forTable` (base.ts, lines 406-420): normalize the table's
configured plugin list, find the tuple whose first element is the class,
return the empty object if absent, otherwise the provider's result with
`?? {}` for a provider that returns nothing. -/
def optionsForTable {V : Type}
    (configPlugins : Option (List (PluginConfigEntry V))) (klass : Nat) :
    List (String × V) :=
  let normalized := normalizePluginsConfig configPlugins
  match normalized.find? (fun t => t.1 == klass) with
  | none => []
  | some t => t.2.getD []

/-- Embedding of `options.forColumn` (base.ts, lines 422-434): the same search over
`column.config.pluginOptions` (which may itself be absent); a missing
tuple, and a provider returning nothing, both yield the empty object. -/
def optionsForColumn {V : Type}
    (pluginOptions : Option (List (Nat × Option (List (String × V)))))
    (klass : Nat) : List (String × V) :=
  match (pluginOptions.getD []).find? (fun t => t.1 == klass) with
  | none => []
  | some t => t.2.getD []

/-- C7: options lookup never fails on absence.  Table scope: if the class
heads no tuple of the normalized configuration the result is the empty
object `[]` (not an error); if its first matching tuple's provider
returns nothing the result is `[]`; otherwise it is exactly the
provider's result.  Column scope behaves identically over the column's
own option-provider list. -/
theorem options_default_to_empty {V : Type}
    (cfg : Option (List (PluginConfigEntry V)))
    (colOpts : Option (List (Nat × Option (List (String × V)))))
    (klass : Nat) :
    ((normalizePluginsConfig cfg).find? (fun t => t.1 == klass) = none →
      optionsForTable cfg klass = []) ∧
    (∀ pr, (normalizePluginsConfig cfg).find? (fun t => t.1 == klass) = some pr →
      pr.2 = none → optionsForTable cfg klass = []) ∧
    (∀ pr o, (normalizePluginsConfig cfg).find? (fun t => t.1 == klass) = some pr →
      pr.2 = some o → optionsForTable cfg klass = o) ∧
    ((colOpts.getD []).find? (fun t => t.1 == klass) = none →
      optionsForColumn colOpts klass = []) ∧
    (∀ pr, (colOpts.getD []).find? (fun t => t.1 == klass) = some pr →
      pr.2 = none → optionsForColumn colOpts klass = []) ∧
    (∀ pr o, (colOpts.getD []).find? (fun t => t.1 == klass) = some pr →
      pr.2 = some o → optionsForColumn colOpts klass = o) := by
  refine ⟨?_, ?_, ?_, ?_, ?_, ?_⟩
  · intro h; simp [optionsForTable, h]
  · intro pr h h2; simp [optionsForTable, h, h2]
  · intro pr o h h2; simp [optionsForTable, h, h2]
  · intro h; simp [optionsForColumn, h]
  · intro pr h h2; simp [optionsForColumn, h, h2]
  · intro pr o h h2; simp [optionsForColumn, h, h2]

/-- Witness for C7 over the configuration
`[withOptions 1 (some [("a", 5)]), withOptions 2 none, bare 3]`:
class 9 is absent and yields `[]`; class 2's provider returns nothing
and yields `[]`; class 1 yields its provider's result; class 3 (bare)
yields the default empty object; and the column-scope list
`[(4, none)]` yields `[]` both for the absent class 9 and for class 4. -/
theorem options_default_to_empty_witness :
    optionsForTable
      (some [.withOptions 1 (some [("a", 5)]), .withOptions 2 none,
             .bare 3]) 9 = ([] : List (String × Nat)) ∧
    optionsForTable
      (some [.withOptions 1 (some [("a", 5)]), .withOptions 2 none,
             .bare 3]) 2 = [] ∧
    optionsForTable
      (some [.withOptions 1 (some [("a", 5)]), .withOptions 2 none,
             .bare 3]) 1 = [("a", 5)] ∧
    optionsForTable
      (some [.withOptions 1 (some [("a", 5)]), .withOptions 2 none,
             .bare 3]) 3 = [] ∧
    optionsForColumn (some [(4, none)]) 9 = ([] : List (String × Nat)) ∧
    optionsForColumn (some [(4, none)]) 4 = ([] : List (String × Nat)) := by
  refine ⟨?_, ?_, ?_, ?_, ?_, ?_⟩
  · exact (options_default_to_empty
      (some [.withOptions 1 (some [("a", 5)]), .withOptions 2 none, .bare 3])
      (some [(4, none)]) 9).1 (by rfl)
  · exact (options_default_to_empty
      (some [.withOptions 1 (some [("a", 5)]), .withOptions 2 none, .bare 3])
      (some [(4, none)]) 2).2.1 (2, none) (by rfl) rfl
  · exact (options_default_to_empty
      (some [.withOptions 1 (some [("a", 5)]), .withOptions 2 none, .bare 3])
      (some [(4, none)]) 1).2.2.1 (1, some [("a", 5)]) [("a", 5)] (by rfl) rfl
  · exact (options_default_to_empty
      (some [.withOptions 1 (some [("a", 5)]), .withOptions 2 none, .bare 3])
      (some [(4, none)]) 3).2.2.1 (3, some []) [] (by rfl) rfl
  · exact (options_default_to_empty
      (some [.withOptions 1 (some [("a", 5)]), .withOptions 2 none, .bare 3])
      (some [(4, none)]) 9).2.2.2.1 (by rfl)
  · exact (options_default_to_empty
      (some [.withOptions 1 (some [("a", 5)]), .withOptions 2 none, .bare 3])
      (some [(4, none)]) 4).2.2.2.2.1 (4, none) (by rfl) rfl

/-- The runtime value of the sticky-columns column option `sticky`,
typed `boolean | string` in `ColumnOptions` (plugin.ts, lines 10-18);
absence (`undefined`) is modelled as `Option.none` around this type. -/
inductive StickyValue where
  | str (s : String)
  | bool (b : Bool)
deriving DecidableEq

/-- The result of `ColumnMeta.position` (plugin.ts, lines 84-93). -/
inductive Position where
  | left
  | right
  | none
deriving DecidableEq

/-- The interpolation of the sticky value into the assertion message. -/
def stickyValueRepr : Option StickyValue → String
  | Option.none => "undefined"
  | some (.str s) => s
  | some (.bool true) => "true"
  | some (.bool false) => "false"

/-- The assertion message of `ColumnMeta.position` (quotes elided). -/
def invalidStickyMessage (sticky : Option StickyValue) : String :=
  "Invalid sticky value, " ++ stickyValueRepr sticky ++
    ". Valid values: left, right, false"

/-- Embedding of `ColumnMeta.position` (plugin.ts, lines 84-93) applied to the value
of the `sticky` column option:
`assert(..., sticky === "left" || sticky === "right" || sticky === false
|| sticky === undefined); return sticky || "none";`. -/
def positionOf (sticky : Option StickyValue) : Except String Position :=
  if sticky = some (.str "left") ∨ sticky = some (.str "right") ∨
      sticky = some (.bool false) ∨ sticky = Option.none then
    match sticky with
    | some (.str "left") => .ok Position.left
    | some (.str "right") => .ok Position.right
    | _ => .ok Position.none
  else
    .error (invalidStickyMessage sticky)

/-- Embedding of `ColumnMeta.isSticky` (plugin.ts, lines 80-82):
`this.position !== "none"`; evaluating `position` may assert. -/
def isStickyOf (sticky : Option StickyValue) : Except String Bool :=
  (positionOf sticky).map (fun p => decide (p ≠ Position.none))

/-- Embedding of `options.forColumn(this.column, StickyColumns)?.sticky`
(plugin.ts, line 85): the `sticky` field of the column's resolved
sticky-columns options, `undefined` when absent. -/
def columnStickyOption
    (pluginOptions : Option (List (Nat × Option (List (String × StickyValue)))))
    (stickyClassId : Nat) : Option StickyValue :=
  lookupA (optionsForColumn pluginOptions stickyClassId) "sticky"

/-- Embedding of `ColumnMeta.position` as reached from a column's configured plugin
options. -/
def columnPosition
    (pluginOptions : Option (List (Nat × Option (List (String × StickyValue)))))
    (stickyClassId : Nat) : Except String Position :=
  positionOf (columnStickyOption pluginOptions stickyClassId)

/-- Embedding of `ColumnMeta.isSticky` as reached from a column's configured plugin
options. -/
def columnIsSticky
    (pluginOptions : Option (List (Nat × Option (List (String × StickyValue)))))
    (stickyClassId : Nat) : Except String Bool :=
  isStickyOf (columnStickyOption pluginOptions stickyClassId)

/-- The object returned by `meta.withFeature.forColumn(column,
"columnWidth")` as inspected by `hasWidth` (plugin.ts, lines 149-151)
and `.width`: either it has no `width` property at all, or it has one
whose value may be a number or `undefined`. -/
inductive WidthMeta where
  | noWidthProp
  | widthProp (w : Option Nat)
deriving DecidableEq

/-- Embedding of `hasWidth` (plugin.ts, lines 149-151): `"width" in obj`. -/
def hasWidth : WidthMeta → Bool
  | .noWidthProp => false
  | .widthProp _ => true

/-- Embedding of `columnMeta.width` once `hasWidth` holds. -/
def widthValue : WidthMeta → Option Nat
  | .noWidthProp => Option.none
  | .widthProp w => w

/-- The feature environment `ColumnMeta.offset` consults: the table's
resolved "columnVisibility" provider (its `columnsBefore` /
`columnsAfter` meta methods) and, for each column, the resolved
"columnWidth" provider's column meta.  Feature resolution itself is the
subject of `feature_resolution_first_match_wins`; columns are identified
by `Nat` object identity. -/
structure StickyEnv where
  columnsBefore : Nat → List Nat
  columnsAfter : Nat → List Nat
  widthMeta : Nat → WidthMeta

/-- Embedding of `ColumnMeta.offset` (plugin.ts, lines 95-134): `undefined` when not
sticky; otherwise the reduce over the columns before (sticky left) or
after (sticky right), adding `columnMeta.width ?? 0` when `hasWidth` and
skipping the column otherwise, rendered as a pixel string. -/
def offsetOf (env : StickyEnv) (sticky : Option StickyValue) (col : Nat) :
    Except String (Option String) :=
  match isStickyOf sticky with
  | .error e => .error e
  | .ok isS =>
      if !isS then .ok Option.none
      else
        match positionOf sticky with
        | .error e => .error e
        | .ok pos =>
            if pos = Position.left then
              .ok (some (toString
                ((env.columnsBefore col).foldl
                  (fun acc c =>
                    if hasWidth (env.widthMeta c) then
                      acc + (widthValue (env.widthMeta c)).getD 0
                    else acc) 0) ++ "px"))
            else
              match positionOf sticky with
              | .error e => .error e
              | .ok pos2 =>
                  if pos2 = Position.right then
                    .ok (some (toString
                      ((env.columnsAfter col).foldl
                        (fun acc c =>
                          if hasWidth (env.widthMeta c) then
                            acc + (widthValue (env.widthMeta c)).getD 0
                          else acc) 0) ++ "px"))
                  else .ok Option.none

/-- What one column contributes to the offset sum: its width, or zero
when the width meta exposes no numeric width. -/
def widthContribution (m : WidthMeta) : Nat :=
  if hasWidth m then (widthValue m).getD 0 else 0

theorem foldl_width_sum (f : Nat → WidthMeta) (l : List Nat) (n : Nat) :
    l.foldl
      (fun acc c =>
        if hasWidth (f c) then acc + (widthValue (f c)).getD 0 else acc) n =
      n + (l.map (fun c => widthContribution (f c))).sum := by
  induction l generalizing n with
  | nil => simp
  | cons hd tl ih =>
      simp only [List.foldl_cons, List.map_cons, List.sum_cons, ih]
      unfold widthContribution
      by_cases h : hasWidth (f hd)
      · simp [h, Nat.add_assoc]
      · simp [h]

/-- C8: for a column whose sticky option resolves to position left
(resp. right), `offset` is the sum of the widths of the columns the
visibility provider reports before (resp. after) it — each column
contributing its width-feature meta's width, or zero when that meta
exposes no numeric width — rendered as a pixel string; in particular a
sticky-right column with no columns after it gets offset "0px". -/
theorem sticky_offset_is_width_sum (env : StickyEnv)
    (sticky : Option StickyValue) (col : Nat) :
    (positionOf sticky = .ok Position.left →
      offsetOf env sticky col = .ok (some (toString
        (((env.columnsBefore col).map
          (fun c => widthContribution (env.widthMeta c))).sum) ++ "px"))) ∧
    (positionOf sticky = .ok Position.right →
      offsetOf env sticky col = .ok (some (toString
        (((env.columnsAfter col).map
          (fun c => widthContribution (env.widthMeta c))).sum) ++ "px"))) ∧
    (positionOf sticky = .ok Position.right → env.columnsAfter col = [] →
      offsetOf env sticky col = .ok (some "0px")) := by
  refine ⟨?_, ?_, ?_⟩
  · intro h
    simp [offsetOf, isStickyOf, h, Except.map, foldl_width_sum]
  · intro h
    simp [offsetOf, isStickyOf, h, Except.map, foldl_width_sum]
  · intro h hafter
    simp [offsetOf, isStickyOf, h, Except.map, hafter]
    rfl

/-- Witness for C8, the worked example of the spec: columns 0, 1, 2 of
widths 50, 100, 75; the visibility provider reports column 0 before the
middle column and nothing after the last; the middle column sticky left
gets "50px" and the last column sticky right gets "0px". -/
theorem sticky_offset_is_width_sum_witness :
    offsetOf
      ⟨fun c => if c = 1 then [0] else [],
       fun c => if c = 2 then [] else [0, 1, 2],
       fun c => if c = 0 then .widthProp (some 50)
         else if c = 1 then .widthProp (some 100) else .widthProp (some 75)⟩
      (some (.str "left")) 1 = .ok (some "50px") ∧
    offsetOf
      ⟨fun c => if c = 1 then [0] else [],
       fun c => if c = 2 then [] else [0, 1, 2],
       fun c => if c = 0 then .widthProp (some 50)
         else if c = 1 then .widthProp (some 100) else .widthProp (some 75)⟩
      (some (.str "right")) 2 = .ok (some "0px") := by
  constructor
  · have h := (sticky_offset_is_width_sum
      ⟨fun c => if c = 1 then [0] else [],
       fun c => if c = 2 then [] else [0, 1, 2],
       fun c => if c = 0 then .widthProp (some 50)
         else if c = 1 then .widthProp (some 100) else .widthProp (some 75)⟩
      (some (.str "left")) 1).1 (by rfl)
    simpa [widthContribution, hasWidth, widthValue] using h
  · exact (sticky_offset_is_width_sum
      ⟨fun c => if c = 1 then [0] else [],
       fun c => if c = 2 then [] else [0, 1, 2],
       fun c => if c = 0 then .widthProp (some 50)
         else if c = 1 then .widthProp (some 100) else .widthProp (some 75)⟩
      (some (.str "right")) 2).2.2 (by rfl) (by rfl)

/-- C10: although `ColumnOptions` types `sticky` as
`boolean | string | undefined`, the only accepted runtime values are
"left", "right", `false` and `undefined`.  For a column whose sticky
option evaluates to any other value — including the type-permitted
`true` and any other string — reading `position` (and hence `isSticky`)
fails the fatal assertion with the invalid-sticky message; for `false`
or `undefined` the position is `none` and `isSticky` is `false`. -/
theorem sticky_value_validation
    (opts : Option (List (Nat × Option (List (String × StickyValue)))))
    (stickyId : Nat) :
    (∀ s : String, columnStickyOption opts stickyId = some (.str s) →
      s ≠ "left" → s ≠ "right" →
      columnPosition opts stickyId =
        .error (invalidStickyMessage (some (.str s))) ∧
      columnIsSticky opts stickyId =
        .error (invalidStickyMessage (some (.str s)))) ∧
    (columnStickyOption opts stickyId = some (.bool true) →
      columnPosition opts stickyId =
        .error (invalidStickyMessage (some (.bool true))) ∧
      columnIsSticky opts stickyId =
        .error (invalidStickyMessage (some (.bool true)))) ∧
    (columnStickyOption opts stickyId = some (.bool false) →
      columnPosition opts stickyId = .ok Position.none ∧
      columnIsSticky opts stickyId = .ok false) ∧
    (columnStickyOption opts stickyId = Option.none →
      columnPosition opts stickyId = .ok Position.none ∧
      columnIsSticky opts stickyId = .ok false) := by
  refine ⟨?_, ?_, ?_, ?_⟩
  · intro s h hs1 hs2
    have hp : positionOf (columnStickyOption opts stickyId) =
        .error (invalidStickyMessage (some (.str s))) := by
      rw [h]
      simp [positionOf, hs1, hs2]
    constructor
    · exact hp
    · unfold columnIsSticky isStickyOf
      rw [hp]
      rfl
  · intro h
    have hp : positionOf (columnStickyOption opts stickyId) =
        .error (invalidStickyMessage (some (.bool true))) := by
      rw [h]
      rfl
    constructor
    · exact hp
    · unfold columnIsSticky isStickyOf
      rw [hp]
      rfl
  · intro h
    constructor
    · unfold columnPosition
      rw [h]
      rfl
    · unfold columnIsSticky isStickyOf
      rw [h]
      rfl
  · intro h
    constructor
    · unfold columnPosition
      rw [h]
      rfl
    · unfold columnIsSticky isStickyOf
      rw [h]
      rfl

/-- Witness for C10: a column configured `sticky: "top"` asserts, one
configured `sticky: true` asserts, and one with no sticky option has
position `none` and is not sticky. -/
theorem sticky_value_validation_witness :
    columnPosition (some [(5, some [("sticky", .str "top")])]) 5 =
      .error "Invalid sticky value, top. Valid values: left, right, false" ∧
    columnIsSticky (some [(5, some [("sticky", .bool true)])]) 5 =
      .error "Invalid sticky value, true. Valid values: left, right, false" ∧
    columnPosition (some [(5, some [])]) 5 = .ok Position.none ∧
    columnIsSticky (some [(5, some [])]) 5 = .ok false := by
  refine ⟨?_, ?_, ?_, ?_⟩
  · exact ((sticky_value_validation (some [(5, some [("sticky", .str "top")])]) 5).1
      "top" (by rfl) (by decide) (by decide)).1
  · exact ((sticky_value_validation (some [(5, some [("sticky", .bool true)])]) 5).2.1
      (by rfl)).2
  · exact ((sticky_value_validation (some [(5, some [])]) 5).2.2.2 (by rfl)).1
  · exact ((sticky_value_validation (some [(5, some [])]) 5).2.2.2 (by rfl)).2

/-- The `Table` resource (part_000) as far as plugin lifetime is
concerned.  `tableKey` is the stable `TABLE_KEY` guid generated once at
construction; `configPluginClasses` the plugin classes of the current
`args.named.plugins`; `argsRev` the revision of the `@tracked args` cell
(Glimmer autotracking: every write of the property dirties it, and
`modify` always assigns a fresh `{ named }` object); `pluginsCache` the
`@cached plugins` getter's memo — the revision of `args` it consumed and
the plugin instance ids it produced; `nextInstanceId` the supply of
fresh object identities for `new PluginClass(this)`. -/
structure TableState where
  tableKey : String
  configPluginClasses : List Nat
  argsRev : Nat
  pluginsCache : Option (Nat × List Nat)
  nextInstanceId : Nat
deriving DecidableEq

/-- Embedding of `Table.modify` (part_000, lines 87-102): `this.args = { named }` —
a fresh object, so the tracked `args` cell is dirtied unconditionally
and every consumer cache is invalidated.  `TABLE_KEY` is untouched. -/
def tableModify (t : TableState) (newPluginClasses : List Nat) : TableState :=
  { t with configPluginClasses := newPluginClasses, argsRev := t.argsRev + 1 }

/-- The body of the `@cached get plugins()` getter (part_000, lines
161-186) on a cache miss: `plugins.map((tuple) => new PluginClass(this))`
— every configured class is instantiated afresh.  The memo records the
`args` revision that was consumed. -/
def recomputePlugins (t : TableState) : List Nat × TableState × Bool :=
  let insts := (List.range t.configPluginClasses.length).map
    (fun i => t.nextInstanceId + i)
  (insts,
   { t with
       pluginsCache := some (t.argsRev, insts),
       nextInstanceId := t.nextInstanceId + t.configPluginClasses.length },
   true)

/-- Embedding of `Table.plugins` (part_000, lines 161-186) under `@cached`: return the
memoized instance list while the consumed `args` revision is current,
otherwise re-run the getter body.  The `Bool` records whether the body
ran (i.e. whether plugin constructors were invoked). -/
def tableGetPlugins (t : TableState) : List Nat × TableState × Bool :=
  match t.pluginsCache with
  | some (rev, insts) =>
      if rev = t.argsRev then (insts, t, false)
      else recomputePlugins t
  | none => recomputePlugins t

/-- C2 as frozen is false on the code: re-applying the very same
configuration invalidates the `@cached plugins` getter (because `modify`
reassigns the tracked `args`), and the next access constructs new Plugin
instances.  Concretely: a table with one plugin class yields instance
ids [0]; after `modify` with an identical plugin list, the same getter
yields the distinct fresh ids [1].  (The code documents this:
"If the plugins argument changes ... all state is lost and
re-created".) -/
theorem plugins_discarded_on_reapply_counterexample :
    (tableGetPlugins ⟨"t", [7], 0, Option.none, 0⟩).1 = [0] ∧
    (tableGetPlugins
      (tableModify (tableGetPlugins ⟨"t", [7], 0, Option.none, 0⟩).2.1 [7])).1 =
      [1] ∧
    (tableGetPlugins ⟨"t", [7], 0, Option.none, 0⟩).1 ≠
      (tableGetPlugins
        (tableModify (tableGetPlugins ⟨"t", [7], 0, Option.none, 0⟩).2.1 [7])).1 := by
  refine ⟨rfl, rfl, ?_⟩
  intro h
  rw [show (tableGetPlugins ⟨"t", [7], 0, Option.none, 0⟩).1 = [0] from rfl] at h
  rw [show (tableGetPlugins
    (tableModify (tableGetPlugins ⟨"t", [7], 0, Option.none, 0⟩).2.1 [7])).1 =
      [1] from rfl] at h
  exact absurd (List.head_eq_of_cons_eq h) Nat.zero_ne_one

/-- C2 amended: re-applying a table's configuration invalidates the
cached plugin list, and the next access re-creates the Plugin instances
as fresh objects (their constructors run again); the table's stable
identity key is unchanged by `modify`, so the table-scoped metadata in
`TABLE_META` — keyed by that identity key, not by the plugin instances —
survives reconfiguration, and options are re-read from the replaced
configuration.  The hypothesis states the memo invariant that the cached
revision was produced by some past read of `args`. -/
theorem plugins_recreated_metadata_survives_on_reapply
    (t : TableState) (cfg : List Nat)
    (hmemo : ∀ rev insts, t.pluginsCache = some (rev, insts) → rev ≤ t.argsRev) :
    (tableGetPlugins (tableModify t cfg)).2.2 = true ∧
    (tableGetPlugins (tableModify t cfg)).1 =
      (List.range cfg.length).map (fun i => t.nextInstanceId + i) ∧
    (tableModify t cfg).tableKey = t.tableKey ∧
    (tableModify t cfg).configPluginClasses = cfg ∧
    (∀ st : Store String Nat Nat, ∀ klass : Nat,
      lookupNested st (tableModify t cfg).tableKey klass =
        lookupNested st t.tableKey klass) := by
  have hrecompute : tableGetPlugins (tableModify t cfg) =
      recomputePlugins (tableModify t cfg) := by
    unfold tableGetPlugins
    cases hc : t.pluginsCache with
    | none => simp [tableModify, hc]
    | some p =>
        obtain ⟨rev, insts⟩ := p
        have hle : rev ≤ t.argsRev := hmemo rev insts hc
        have hne : rev ≠ t.argsRev + 1 := by omega
        simp [tableModify, hc, hne]
  refine ⟨?_, ?_, rfl, rfl, fun st klass => rfl⟩
  · rw [hrecompute]; rfl
  · rw [hrecompute]; rfl

/-- Witness for the amended C2: the concrete table of the
counterexample, re-applying the same one-plugin configuration. -/
theorem plugins_recreated_metadata_survives_on_reapply_witness :
    (tableGetPlugins (tableModify ⟨"t", [7], 1, some (1, [0]), 1⟩ [7])).2.2 =
      true ∧
    (tableGetPlugins (tableModify ⟨"t", [7], 1, some (1, [0]), 1⟩ [7])).1 =
      [1] ∧
    (tableModify ⟨"t", [7], 1, some (1, [0]), 1⟩ [7]).tableKey = "t" := by
  have h := plugins_recreated_metadata_survives_on_reapply
    ⟨"t", [7], 1, some (1, [0]), 1⟩ [7]
    (by
      intro rev insts hc
      simp only [Option.some.injEq, Prod.mk.injEq] at hc
      obtain ⟨hrev, -⟩ := hc
      subst hrev
      exact Nat.le_refl 1)
  exact ⟨h.1, by rw [h.2.1]; rfl, h.2.2.2.1 ▸ rfl⟩

end HeadlessTable
